import Mathlib

/-!
Shallow embedding of the nodescope entry-storage core: the storage backends
(`MemoryStorage`, `SQLiteStorage`, `MySQLStorage`, `PostgreSQLStorage`), the
watchers (`RequestWatcher`, `QueryWatcher`, `CacheWatcher`,
`HttpClientWatcher`), the dashboard `ApiHandler` and the `RealTimeServer`
heartbeat, together with theorems checking the behavioural contract stated in
the specification.

Conventions used throughout:
* timestamps (`createdAt`, `performance.now()`, `Date.now()`) are epoch
  milliseconds modelled as `Int`; `Date` comparison in JavaScript compares
  these numbers, and the SQL backends compare fixed-width ISO-8601 UTC
  strings, whose lexicographic order agrees with the numeric order;
* an entry's `content` object is represented by its JSON serialization,
  which is everything the storage layer observes of it (`MemoryStorage`
  serializes on demand for `search`; the SQL backends store serialized text);
* a JavaScript `Map` is an insertion-ordered association list, a `Set` an
  insertion-ordered duplicate-free list;
* a computation that can throw (or return a rejected promise) is modelled in
  `Except String`.
-/

namespace NodeScope

/-- Entry types the system can capture (`types.ts`, `EntryType`). -/
inductive EntryType where
  | request | query | cache | log | exception | httpClient | event | job | schedule | dump
deriving DecidableEq, Repr

/-- A stored entry (`types.ts`, `Entry`). `content` is the JSON serialization
of the content object; `createdAt` is epoch milliseconds. -/
structure Entry where
  id : String
  batchId : String
  type : EntryType
  content : String
  tags : List String
  createdAt : Int
  duration : Option Int := none
  memoryUsage : Option Int := none
deriving DecidableEq, Repr

/-- Lookup in a JavaScript `Map` modelled as an insertion-ordered association
list (`Map.get`). -/
def mapGet {κ β : Type} [DecidableEq κ] (m : List (κ × β)) (k : κ) : Option β :=
  match m.find? (fun p => p.1 = k) with
  | some p => some p.2
  | none => none

/-- JavaScript `Map.set`: overwrite in place when the key is present, append
otherwise (insertion order of an existing key is preserved). -/
def mapSet {κ β : Type} [DecidableEq κ] (m : List (κ × β)) (k : κ) (v : β) : List (κ × β) :=
  if m.any (fun p => p.1 = k) then
    m.map (fun p => if p.1 = k then (k, v) else p)
  else m ++ [(k, v)]

/-- JavaScript `Map.delete`: remove the binding of a key. -/
def mapDel {κ β : Type} [DecidableEq κ] (m : List (κ × β)) (k : κ) : List (κ × β) :=
  m.eraseP (fun p => p.1 = k)

/-- JavaScript `Set.add` on a set modelled as an insertion-ordered
duplicate-free list. -/
def setAdd (s : List String) (x : String) : List String :=
  if s.contains x then s else s ++ [x]

/-- State of `MemoryStorage` (`storage/memory.ts`): the primary entry map plus
the per-batch and per-type id indexes. -/
structure MemState where
  entries : List (String × Entry)
  entriesByBatch : List (String × List String)
  entriesByType : List (EntryType × List String)
  maxEntries : Nat
deriving DecidableEq, Repr

/-- A freshly constructed `MemoryStorage` (`maxEntries` defaults to 1000). -/
def MemState.empty (maxEntries : Nat := 1000) : MemState :=
  { entries := [], entriesByBatch := [], entriesByType := [], maxEntries := maxEntries }

/-- Half of `addToIndexes`: ensure the key has a set and add the id to it. -/
def indexAdd {κ : Type} [DecidableEq κ] (idx : List (κ × List String)) (k : κ) (id : String) :
    List (κ × List String) :=
  match mapGet idx k with
  | some s => mapSet idx k (setAdd s id)
  | none => idx ++ [(k, [id])]

/-- Half of `removeFromIndexes`: delete the id from the key's set, if any. -/
def indexRemove {κ : Type} [DecidableEq κ] (idx : List (κ × List String)) (k : κ) (id : String) :
    List (κ × List String) :=
  match mapGet idx k with
  | some s => mapSet idx k (s.erase id)
  | none => idx

/-- Body of `MemoryStorage.save`'s eviction loop for one key yielded by
`entries.keys()`. The `if (oldestKey)` truthiness guard skips the empty string
(and an exhausted iterator); otherwise the old entry, if found, is removed from
the indexes, and the key is deleted from the primary map. -/
def evictOne (st : MemState) (k : String) : MemState :=
  if k = "" then st
  else
    let st1 :=
      match mapGet st.entries k with
      | some old =>
          { st with
            entriesByBatch := indexRemove st.entriesByBatch old.batchId old.id,
            entriesByType := indexRemove st.entriesByType old.type old.id }
      | none => st
    { st1 with entries := mapDel st1.entries k }

/-- `MemoryStorage.save`. When the map already holds `maxEntries` or more
entries, the first `Math.floor(maxEntries * 0.1)` keys yielded by the key
iterator (the oldest-inserted ones; deleting a yielded key does not disturb the
iterator) are evicted; `Math.floor(maxEntries * 0.1)` is `maxEntries / 10` in
`Nat` arithmetic. Then the entry is stored under its id and indexed. -/
def MemState.save (st : MemState) (e : Entry) : MemState :=
  let st1 :=
    if st.maxEntries ≤ st.entries.length then
      ((st.entries.map Prod.fst).take (st.maxEntries / 10)).foldl evictOne st
    else st
  { st1 with
    entries := mapSet st1.entries e.id e,
    entriesByBatch := indexAdd st1.entriesByBatch e.batchId e.id,
    entriesByType := indexAdd st1.entriesByType e.type e.id }

/-- `MemoryStorage.saveBatch`: apply `save` to each entry in order. -/
def MemState.saveBatch (st : MemState) (es : List Entry) : MemState :=
  es.foldl MemState.save st

/-- `MemoryStorage.find`: `entries.get(id) ?? null`. -/
def MemState.find (st : MemState) (id : String) : Option Entry :=
  mapGet st.entries id

/-- `MemoryStorage.prune`: the loop visits every pair of the map, and for each
entry older than the cutoff removes it from both indexes, deletes it from the
map (JavaScript `Map` supports deletion of the visited key during iteration)
and increments the counter. The surviving entries are exactly the non-matching
ones, in order. -/
def MemState.prune (st : MemState) (cutoff : Int) : MemState × Nat :=
  let part := st.entries.partition (fun p => p.2.createdAt < cutoff)
  ({ st with
     entries := part.2,
     entriesByBatch := part.1.foldl (fun ix p => indexRemove ix p.2.batchId p.2.id) st.entriesByBatch,
     entriesByType := part.1.foldl (fun ix p => indexRemove ix p.2.type p.2.id) st.entriesByType },
   part.1.length)

/-- `MemoryStorage.clear`: wipe the map and both indexes. -/
def MemState.clear (st : MemState) : MemState :=
  { entries := [], entriesByBatch := [], entriesByType := [], maxEntries := st.maxEntries }

/-- JavaScript `toUpperCase`, written over the character list (semantically
`String.toUpper`) so that concrete evaluations can reduce it. -/
def jsToUpper (s : String) : String :=
  ⟨s.data.map Char.toUpper⟩

/-- JavaScript `toLowerCase`, written over the character list (semantically
`String.toLower`). -/
def jsToLower (s : String) : String :=
  ⟨s.data.map Char.toLower⟩

/-- Whitespace trim at both ends (semantically `String.trim`). -/
def jsTrim (s : String) : String :=
  ⟨((s.data.dropWhile Char.isWhitespace).reverse.dropWhile Char.isWhitespace).reverse⟩

/-- Character-list test used to model `String.prototype.includes`: is the
first list a prefix of the second? -/
def charsPre : List Char → List Char → Bool
  | [], _ => true
  | _ :: _, [] => false
  | a :: as, b :: bs => a == b && charsPre as bs

/-- Does the needle occur contiguously in the haystack? -/
def charsSub (needle : List Char) : List Char → Bool
  | [] => charsPre needle []
  | c :: cs => charsPre needle (c :: cs) || charsSub needle cs

/-- JavaScript `haystack.includes(needle)`. -/
def jsIncludes (hay needle : String) : Bool :=
  charsSub needle.data hay.data

/-- Sort entries by `createdAt` descending, as `results.sort((a, b) =>
b.createdAt.getTime() - a.createdAt.getTime())` and SQL `ORDER BY created_at
DESC` do. -/
def sortDesc (l : List Entry) : List Entry :=
  l.insertionSort (fun a b => b.createdAt ≤ a.createdAt)

/-- Sort entries by `createdAt` ascending (`findByBatch` order). -/
def sortAsc (l : List Entry) : List Entry :=
  l.insertionSort (fun a b => a.createdAt ≤ b.createdAt)

instance : IsTotal Entry (fun a b => b.createdAt ≤ a.createdAt) :=
  ⟨fun _ _ => le_total _ _⟩

instance : IsTrans Entry (fun a b => b.createdAt ≤ a.createdAt) :=
  ⟨fun _ _ _ hab hbc => le_trans hbc hab⟩

instance : IsTotal Entry (fun a b => a.createdAt ≤ b.createdAt) :=
  ⟨fun _ _ => le_total _ _⟩

instance : IsTrans Entry (fun a b => a.createdAt ≤ b.createdAt) :=
  ⟨fun _ _ _ hab hbc => le_trans hab hbc⟩

/-- Query options for `list` (`types.ts`, `ListOptions`), after the falsy
checks of the implementations: an absent filter is `none`, and `limit`/`offset`
carry their destructuring defaults 50 and 0. -/
structure ListOptions where
  type : Option EntryType := none
  batchId : Option String := none
  tags : Option (List String) := none
  search : Option String := none
  before : Option Int := none
  after : Option Int := none
  limit : Nat := 50
  offset : Nat := 0
deriving DecidableEq, Repr

/-- A page of results (`types.ts`, `PaginatedResult<Entry>`). -/
structure Paginated where
  data : List Entry
  total : Nat
  limit : Nat
  offset : Nat
  hasMore : Bool
deriving DecidableEq, Repr

/-- `MemoryStorage.list`. The base set comes from the type index when `type`
is supplied, otherwise from the batch index when `batchId` is supplied
(an `else if`: with both filters present the `batchId` filter is never
applied), otherwise it is every entry. Tag, search, before and after filters
are applied in turn, the result is sorted descending, `total` is taken, and
the page is `slice(offset, offset + limit)`. -/
def MemState.list (st : MemState) (o : ListOptions) : Paginated :=
  let base : List Entry :=
    match o.type with
    | some t =>
        match mapGet st.entriesByType t with
        | some ids => ids.filterMap (mapGet st.entries)
        | none => []
    | none =>
        match o.batchId with
        | some b =>
            match mapGet st.entriesByBatch b with
            | some ids => ids.filterMap (mapGet st.entries)
            | none => []
        | none => st.entries.map Prod.snd
  let r1 :=
    match o.tags with
    | some ts =>
        if 0 < ts.length then
          base.filter (fun e => ts.any (fun t => e.tags.contains t))
        else base
    | none => base
  let r2 :=
    match o.search with
    | some s => r1.filter (fun e => jsIncludes (jsToLower e.content) (jsToLower s))
    | none => r1
  let r3 :=
    match o.before with
    | some b => r2.filter (fun e => e.createdAt < b)
    | none => r2
  let r4 :=
    match o.after with
    | some a => r3.filter (fun e => a < e.createdAt)
    | none => r3
  let sorted := sortDesc r4
  { data := (sorted.drop o.offset).take o.limit,
    total := sorted.length,
    limit := o.limit,
    offset := o.offset,
    hasMore := o.offset + o.limit < sorted.length }

/-- `MemoryStorage.findByBatch`: the ids of the batch index, resolved through
the primary map (dropping ids whose entry is gone), sorted ascending. -/
def MemState.findByBatch (st : MemState) (b : String) : List Entry :=
  match mapGet st.entriesByBatch b with
  | some ids => sortAsc (ids.filterMap (mapGet st.entries))
  | none => []

/-- `SQLiteStorage.save` (`INSERT OR REPLACE`): a conflicting row with the
same primary key `id` is deleted in its entirety and the new row inserted. -/
def sqliteSave (tbl : List Entry) (e : Entry) : List Entry :=
  tbl.filter (fun r => r.id ≠ e.id) ++ [e]

/-- `MySQLStorage.save` (`INSERT ... ON DUPLICATE KEY UPDATE content, tags,
duration, memory_usage`): on an id conflict only those four columns are
updated; `batch_id`, `type` and `created_at` keep their stored values.
`PostgreSQLStorage.save` (`ON CONFLICT (id) DO UPDATE SET` the same four
columns) behaves identically. -/
def mysqlSave (tbl : List Entry) (e : Entry) : List Entry :=
  if tbl.any (fun r => r.id = e.id) then
    tbl.map (fun r =>
      if r.id = e.id then
        { r with content := e.content, tags := e.tags,
                 duration := e.duration, memoryUsage := e.memoryUsage }
      else r)
  else tbl ++ [e]

/-- Row lookup by primary key, shared by the SQL backends' `find`. -/
def sqlFind (tbl : List Entry) (id : String) : Option Entry :=
  tbl.find? (fun r => r.id = id)

/-- The `WHERE` clause built by `SQLiteStorage.list` and `MySQLStorage.list`:
type, batchId, before, after and search filters only — the tags filter is not
part of it. SQL `LIKE`/`ILIKE` substring search is case-insensitive. -/
def sqlWhere (o : ListOptions) (r : Entry) : Bool :=
  (match o.type with | some t => r.type = t | none => true) &&
  (match o.batchId with | some b => r.batchId = b | none => true) &&
  (match o.before with | some x => r.createdAt < x | none => true) &&
  (match o.after with | some x => x < r.createdAt | none => true) &&
  (match o.search with | some s => jsIncludes (jsToLower r.content) (jsToLower s) | none => true)

/-- `SQLiteStorage.list` (and identically `MySQLStorage.list`): `total` is
`COUNT(*)` over the `WHERE` clause, the page is selected with `ORDER BY
created_at DESC LIMIT ? OFFSET ?`, and only then is the tags filter applied,
in application code, to the already-paginated page. -/
def sqliteList (tbl : List Entry) (o : ListOptions) : Paginated :=
  let matched := tbl.filter (sqlWhere o)
  let total := matched.length
  let page := ((sortDesc matched).drop o.offset).take o.limit
  let data :=
    match o.tags with
    | some ts =>
        if 0 < ts.length then
          page.filter (fun e => ts.any (fun t => e.tags.contains t))
        else page
    | none => page
  { data := data, total := total, limit := o.limit, offset := o.offset,
    hasMore := o.offset + o.limit < total }

/-- `MySQLStorage.list` has the same shape as `SQLiteStorage.list`. -/
def mysqlList : List Entry → ListOptions → Paginated :=
  sqliteList

/-- `PostgreSQLStorage.list`: the tags filter (`tags ?| $n`, any-overlap) is
part of the `WHERE` clause, so it participates in both the count and the
selection. -/
def pgList (tbl : List Entry) (o : ListOptions) : Paginated :=
  let matched := tbl.filter (fun r =>
    sqlWhere o r &&
    (match o.tags with
     | some ts => if 0 < ts.length then ts.any (fun t => r.tags.contains t) else true
     | none => true))
  let total := matched.length
  { data := ((sortDesc matched).drop o.offset).take o.limit,
    total := total, limit := o.limit, offset := o.offset,
    hasMore := o.offset + o.limit < total }

/-- `findByBatch` of the SQL backends: `WHERE batch_id = ? ORDER BY created_at
ASC`. -/
def sqlFindByBatch (tbl : List Entry) (b : String) : List Entry :=
  sortAsc (tbl.filter (fun r => r.batchId = b))

/-- `prune` of the SQL backends: `DELETE FROM entries WHERE created_at < ?`,
returning the number of affected rows. -/
def sqlPrune (tbl : List Entry) (cutoff : Int) : List Entry × Nat :=
  let part := tbl.partition (fun r => r.createdAt < cutoff)
  (part.2, part.1.length)

/-- Stated from the specification, for comparison with the implementations:
an entry matches a list request when it passes every supplied filter — type,
batchId, any-overlap tags, case-insensitive substring search, and the
exclusive before/after bounds. -/
def specMatchesFilters (o : ListOptions) (r : Entry) : Bool :=
  (match o.type with | some t => r.type = t | none => true) &&
  (match o.batchId with | some b => r.batchId = b | none => true) &&
  (match o.tags with
   | some ts => if 0 < ts.length then ts.any (fun t => r.tags.contains t) else true
   | none => true) &&
  (match o.search with | some s => jsIncludes (jsToLower r.content) (jsToLower s) | none => true) &&
  (match o.before with | some x => r.createdAt < x | none => true) &&
  (match o.after with | some x => x < r.createdAt | none => true)

/-- Stated from the specification: the `total` of a list response must count
the entries matching all supplied filters, before pagination. -/
def specFilteredTotal (tbl : List Entry) (o : ListOptions) : Nat :=
  (tbl.filter (specMatchesFilters o)).length

/-- Generator-supplied data for `BaseWatcher.createEntry` (`watchers/base.ts`):
the `nanoid()` for the entry id, the `nanoid()` used when no batch id was
supplied, and `new Date()` / `performance.now()` as epoch milliseconds. -/
structure GenEnv where
  freshId : String
  freshBatchId : String
  now : Int
deriving DecidableEq, Repr

/-- The options record accepted by `BaseWatcher.createEntry`. -/
structure CreateOpts where
  batchId : Option String := none
  tags : Option (List String) := none
  duration : Option Int := none
  memoryUsage : Option Int := none
deriving DecidableEq, Repr

/-- A watcher-produced entry, with its typed content (`types.ts`, `Entry`
before the content object is serialized for storage). -/
structure WEntry (C : Type) where
  id : String
  batchId : String
  type : EntryType
  content : C
  tags : List String
  createdAt : Int
  duration : Option Int
  memoryUsage : Option Int
deriving DecidableEq, Repr

/-- `BaseWatcher.createEntry`: fresh id, supplied-or-fresh batch id, the
watcher's type tag, the given content and tags, and the creation timestamp. -/
def createEntry {C : Type} (ty : EntryType) (env : GenEnv) (content : C) (opts : CreateOpts) :
    WEntry C :=
  { id := env.freshId,
    batchId := opts.batchId.getD env.freshBatchId,
    type := ty,
    content := content,
    tags := opts.tags.getD [],
    createdAt := env.now,
    duration := opts.duration,
    memoryUsage := opts.memoryUsage }

/-- An opaque JavaScript value as the watchers observe it: `serial` is the
outcome of `JSON.stringify` — `some s` when serialization yields `s`, `none`
when it throws (for example on a circular structure). -/
structure JsValue where
  serial : Option String
deriving DecidableEq, Repr

/-- Result of a body/value truncation step: the nullish passthrough, the value
kept as is, or a sentinel string replacing it. -/
inductive BodyVal where
  | nil
  | val (v : JsValue)
  | sentinel (s : String)
deriving DecidableEq, Repr

/-- `QueryEntryContent` (`types.ts`). -/
structure QueryEntryContent where
  sql : String
  bindings : List String
  connection : String
  database : Option String
  slow : Bool
  rowCount : Option Int
deriving DecidableEq, Repr

/-- Constructor options of `QueryWatcher`. -/
structure QueryWatcherOptions where
  enabled : Option Bool := none
  slowThreshold : Option Int := none
deriving DecidableEq, Repr

/-- The `QueryWatcher` state after construction. -/
structure QueryWatcher where
  enabled : Bool
  slowThreshold : Int
deriving DecidableEq, Repr

/-- The `QueryWatcher` constructor: `enabled` defaults to `true`,
`slowThreshold` to `DEFAULT_SLOW_THRESHOLD = 100` milliseconds. -/
def QueryWatcher.ofOptions (o : QueryWatcherOptions) : QueryWatcher :=
  { enabled := o.enabled.getD true, slowThreshold := o.slowThreshold.getD 100 }

/-- `QueryWatcher.extractQueryType`: lower-case, trim, and test the leading
SQL keyword. -/
def extractQueryType (sql : String) : Option String :=
  let normalized := jsToLower (jsTrim sql)
  if normalized.startsWith "select" then some "select"
  else if normalized.startsWith "insert" then some "insert"
  else if normalized.startsWith "update" then some "update"
  else if normalized.startsWith "delete" then some "delete"
  else if normalized.startsWith "create" then some "create"
  else if normalized.startsWith "alter" then some "alter"
  else if normalized.startsWith "drop" then some "drop"
  else none

/-- The data record accepted by `QueryWatcher.record`. -/
structure QueryRecordData where
  batchId : Option String := none
  sql : String
  bindings : Option (List String) := none
  connection : Option String := none
  database : Option String := none
  duration : Int
  rowCount : Option Int := none
deriving DecidableEq, Repr

/-- `QueryWatcher.record`: classify `slow := duration > slowThreshold`, build
the content, tag `slow` when slow and `query:<verb>` when a leading keyword is
recognized. -/
def QueryWatcher.record (w : QueryWatcher) (env : GenEnv) (d : QueryRecordData) :
    WEntry QueryEntryContent :=
  let slow : Bool := w.slowThreshold < d.duration
  let content : QueryEntryContent :=
    { sql := d.sql,
      bindings := d.bindings.getD [],
      connection := d.connection.getD "default",
      database := d.database,
      slow := slow,
      rowCount := d.rowCount }
  let tags :=
    (if slow then ["slow"] else []) ++
    (match extractQueryType d.sql with
     | some t => ["query:" ++ t]
     | none => [])
  createEntry .query env content
    { batchId := d.batchId, tags := some tags, duration := some d.duration }

/-- The `RequestWatcher` state after construction. -/
structure RequestWatcher where
  enabled : Bool
  sizeLimit : Nat
  ignorePaths : List String
  captureBody : Bool
  captureResponse : Bool
  hideHeaders : List String
deriving DecidableEq, Repr

/-- Constructor options of `RequestWatcher`. -/
structure RequestWatcherOptions where
  enabled : Option Bool := none
  sizeLimit : Option Nat := none
  ignorePaths : Option (List String) := none
  captureBody : Option Bool := none
  captureResponse : Option Bool := none
  hideHeaders : Option (List String) := none
deriving DecidableEq, Repr

/-- The `RequestWatcher` constructor with its documented defaults. -/
def RequestWatcher.ofOptions (o : RequestWatcherOptions) : RequestWatcher :=
  { enabled := o.enabled.getD true,
    sizeLimit := o.sizeLimit.getD 64,
    ignorePaths := o.ignorePaths.getD ["/_nodescope", "/favicon.ico"],
    captureBody := o.captureBody.getD true,
    captureResponse := o.captureResponse.getD true,
    hideHeaders := o.hideHeaders.getD ["authorization", "cookie", "set-cookie"] }

/-- `RequestWatcher.truncateBody`. `JSON.stringify(body)` is applied with no
`try`/`catch`, so a value whose serialization throws propagates the exception,
modelled as `Except.error`. The size check compares serialized UTF-8 bytes
over 1024 against the KB ceiling (strictly), and replaces an oversized body
with a sentinel string carrying the rounded size. -/
def reqTruncateBody (sizeLimitKB : Nat) (body : Option JsValue) : Except String BodyVal :=
  match body with
  | none => .ok .nil
  | some v =>
      match v.serial with
      | none => .error "TypeError: Converting circular structure to JSON"
      | some s =>
          if sizeLimitKB * 1024 < s.utf8ByteSize then
            .ok (.sentinel ("[TRUNCATED - " ++ toString ((s.utf8ByteSize + 512) / 1024) ++
              "KB exceeds " ++ toString sizeLimitKB ++ "KB limit]"))
          else .ok (.val v)

/-- `RequestWatcher.getBodySize` / `HttpClientWatcher.getBodySize`: the
serialized byte count, with a `catch` that degrades to `undefined`. -/
def getBodySize (body : Option JsValue) : Option Nat :=
  match body with
  | none => none
  | some v =>
      match v.serial with
      | none => none
      | some s => some s.utf8ByteSize

/-- `CacheWatcher.truncateValue` (`watchers/cache.ts`): serialization is
wrapped in `try`/`catch`; failure degrades to the `[UNSERIALIZABLE]` sentinel,
and a serialization longer than 1024 UTF-16 units is replaced by a sentinel
carrying the length. -/
def cacheTruncateValue (value : Option JsValue) : BodyVal :=
  match value with
  | none => .nil
  | some v =>
      match v.serial with
      | none => .sentinel "[UNSERIALIZABLE]"
      | some s =>
          if 1024 < s.length then
            .sentinel ("[TRUNCATED - " ++ toString s.length ++ " bytes]")
          else .val v

/-- `HttpClientWatcher.truncateBody`: like the request watcher's but with a
`catch` degrading to the `[UNSERIALIZABLE]` sentinel. -/
def httpTruncateBody (sizeLimitKB : Nat) (body : Option JsValue) : BodyVal :=
  match body with
  | none => .nil
  | some v =>
      match v.serial with
      | none => .sentinel "[UNSERIALIZABLE]"
      | some s =>
          if sizeLimitKB * 1024 < s.utf8ByteSize then
            .sentinel ("[TRUNCATED - " ++ toString ((s.utf8ByteSize + 512) / 1024) ++ "KB]")
          else .val v

/-- Response half of `RequestEntryContent`. -/
structure RespContent where
  status : Int
  headers : List (String × String)
  body : BodyVal
  size : Option Nat
deriving DecidableEq, Repr

/-- `RequestEntryContent` (`types.ts`); the `session`, `middleware` and
`controllerAction` passthrough fields are omitted. -/
structure RequestContent where
  method : String
  url : String
  path : String
  query : List (String × String)
  headers : List (String × String)
  body : BodyVal
  ip : Option String
  userAgent : Option String
  response : RespContent
deriving DecidableEq, Repr

/-- `RequestWatcher.filterHeaders`: replace the value of every header whose
lower-cased name is configured to be hidden. -/
def filterHeaders (hide : List String) (hs : List (String × String)) : List (String × String) :=
  hs.map (fun p => if hide.contains (jsToLower p.1) then (p.1, "[HIDDEN]") else p)

/-- The response part of the data accepted by `RequestWatcher.record`. -/
structure ReqRespData where
  status : Int
  headers : List (String × String) := []
  body : Option JsValue := none
deriving DecidableEq, Repr

instance {ε α : Type} [DecidableEq ε] [DecidableEq α] : DecidableEq (Except ε α) := fun
  | .error a, .error b =>
      if h : a = b then .isTrue (h ▸ rfl) else .isFalse (fun hh => h (Except.error.inj hh))
  | .error _, .ok _ => .isFalse (fun hh => Except.noConfusion hh)
  | .ok _, .error _ => .isFalse (fun hh => Except.noConfusion hh)
  | .ok a, .ok b =>
      if h : a = b then .isTrue (h ▸ rfl) else .isFalse (fun hh => h (Except.ok.inj hh))

/-- The data record accepted by `RequestWatcher.record`. -/
structure RequestRecordData where
  batchId : String
  startTime : Int
  method : String
  url : String
  path : String
  query : List (String × String) := []
  headers : List (String × String) := []
  body : Option JsValue := none
  ip : Option String := none
  userAgent : Option String := none
  response : ReqRespData
deriving DecidableEq, Repr

/-- `RequestWatcher.generateTags`: `method:<M>` and `status:<code>` always,
`error` when the status is at least 400, `server-error` when it is at least
500, pushed in that order. -/
def generateTags (c : RequestContent) : List String :=
  ["method:" ++ c.method, "status:" ++ toString c.response.status] ++
  (if 400 ≤ c.response.status then ["error"] else []) ++
  (if 500 ≤ c.response.status then ["server-error"] else [])

/-- `RequestWatcher.record`. A path matching a configured ignore prefix vetoes
the entry (`null`). Otherwise headers are filtered, the request and response
bodies are truncated (each truncation can throw, which propagates — the pure
header filtering and duration computation are inlined, which does not change
any value), and the entry is created with the derived tags. -/
def RequestWatcher.record (w : RequestWatcher) (env : GenEnv) (d : RequestRecordData) :
    Except String (Option (WEntry RequestContent)) :=
  if w.ignorePaths.any (fun p => d.path.startsWith p) then .ok none
  else
    match (if w.captureBody then reqTruncateBody w.sizeLimit d.body else .ok .nil) with
    | .error msg => .error msg
    | .ok requestBody =>
        match (if w.captureResponse then reqTruncateBody w.sizeLimit d.response.body
               else .ok .nil) with
        | .error msg => .error msg
        | .ok responseBody =>
            let content : RequestContent :=
              { method := jsToUpper d.method,
                url := d.url,
                path := d.path,
                query := d.query,
                headers := filterHeaders w.hideHeaders d.headers,
                body := requestBody,
                ip := d.ip,
                userAgent := d.userAgent,
                response :=
                  { status := d.response.status,
                    headers := filterHeaders w.hideHeaders d.response.headers,
                    body := responseBody,
                    size := getBodySize d.response.body } }
            .ok (some (createEntry .request env content
              { batchId := some d.batchId,
                tags := some (generateTags content),
                duration := some (env.now - d.startTime) }))

/-- The statistics payload returned by `stats()` as far as the API layer
observes it. -/
structure StatsVal where
  totalEntries : Nat
  oldestEntry : Option Int := none
  newestEntry : Option Int := none
deriving DecidableEq, Repr

/-- The storage adapter as `ApiHandler` sees it: each operation is async and
may reject, modelled as `Except String`. -/
structure StorageM where
  list : ListOptions → Except String Paginated
  find : String → Except String (Option Entry)
  findByBatch : String → Except String (List Entry)
  stats : Except String StatsVal
  clear : Except String Unit
  prune : Int → Except String Nat

/-- The response body shapes produced by `ApiHandler`. -/
inductive ApiBody where
  | errMsg (msg : String)
  | entryB (e : Entry)
  | pageB (p : Paginated)
  | batchB (batchId : String) (entries : List Entry)
  | statsB (s : StatsVal)
  | clearedB
  | prunedB (pruned : Nat) (hours : Int)
deriving DecidableEq, Repr

/-- A response of the API layer (`types.ts`, `ApiResponse`). -/
structure ApiResponse where
  status : Nat
  body : ApiBody
deriving DecidableEq, Repr

/-- A request to the API layer: `path` is `new URL(req.url,
'http://localhost').pathname`, `query` carries the already-coerced list
options (the `String(...)`, `parseInt` and `new Date` coercions of
`listEntries` never throw), and `bodyHours` is the optional `hours` field of a
prune request's body. -/
structure ApiRequest where
  method : String
  path : String
  query : ListOptions := {}
  bodyHours : Option Int := none

/-- Match of the route patterns of the form `^/api/xxx/[^/]+$`: the path must
extend the prefix by one nonempty slash-free segment, which
`path.split('/').pop()` then extracts. -/
def matchTail (path pre : String) : Option String :=
  if path.startsWith pre then
    let rest := path.drop pre.length
    if rest ≠ "" && !(rest.data.contains '/') then some rest else none
  else none

/-- `ApiHandler.listEntries` after query coercion. -/
def apiListEntries (st : StorageM) (req : ApiRequest) : Except String ApiResponse :=
  match st.list req.query with
  | .error msg => .error msg
  | .ok r => .ok { status := 200, body := .pageB r }

/-- `ApiHandler.getEntry`: 404 with `Entry not found` on absence. -/
def apiGetEntry (st : StorageM) (id : String) : Except String ApiResponse :=
  match st.find id with
  | .error msg => .error msg
  | .ok none => .ok { status := 404, body := .errMsg "Entry not found" }
  | .ok (some e) => .ok { status := 200, body := .entryB e }

/-- `ApiHandler.getBatch`. -/
def apiGetBatch (st : StorageM) (b : String) : Except String ApiResponse :=
  match st.findByBatch b with
  | .error msg => .error msg
  | .ok es => .ok { status := 200, body := .batchB b es }

/-- `ApiHandler.getStats`. -/
def apiGetStats (st : StorageM) : Except String ApiResponse :=
  match st.stats with
  | .error msg => .error msg
  | .ok s => .ok { status := 200, body := .statsB s }

/-- `ApiHandler.clearEntries`. -/
def apiClear (st : StorageM) : Except String ApiResponse :=
  match st.clear with
  | .error msg => .error msg
  | .ok _ => .ok { status := 200, body := .clearedB }

/-- `ApiHandler.pruneEntries`: `hours` defaults to 24, the cutoff is
`Date.now() - hours * 60 * 60 * 1000`. -/
def apiPrune (st : StorageM) (now : Int) (req : ApiRequest) : Except String ApiResponse :=
  let hours := req.bodyHours.getD 24
  match st.prune (now - hours * 60 * 60 * 1000) with
  | .error msg => .error msg
  | .ok n => .ok { status := 200, body := .prunedB n hours }

/-- `ApiHandler.handle`. The route handlers are async and their promises are
returned from inside the `try` block without `await`; in JavaScript the
surrounding `catch` intercepts only synchronous exceptions, so a rejected
promise from a storage call is adopted as `handle`'s own result and the
`catch` clause (which would produce a 500 response) is bypassed. Since the
route matching itself cannot throw, the model returns each route helper's
`Except` value unchanged; the only non-route outcome is the 404 response. -/
def apiHandle (st : StorageM) (now : Int) (req : ApiRequest) : Except String ApiResponse :=
  if req.method = "GET" && req.path = "/api/entries" then
    apiListEntries st req
  else
    match (if req.method = "GET" then matchTail req.path "/api/entries/" else none) with
    | some id => apiGetEntry st id
    | none =>
        match (if req.method = "GET" then matchTail req.path "/api/batch/" else none) with
        | some b => apiGetBatch st b
        | none =>
            if req.method = "GET" && req.path = "/api/stats" then apiGetStats st
            else if req.method = "DELETE" && req.path = "/api/entries" then apiClear st
            else if req.method = "POST" && req.path = "/api/prune" then apiPrune st now req
            else .ok { status := 404, body := .errMsg "Not found" }

/-- State of `RealTimeServer`'s timer bookkeeping (`types.ts`): the ids of
periodic tasks currently scheduled with `setInterval` and not yet cleared, a
fresh-id supply for the next `setInterval` handle, and the
`heartbeatInterval` field holding the active heartbeat handle, if any. The
client set, which the heartbeat does not touch, is omitted. -/
structure RTState where
  activeTimers : List Nat
  nextTimer : Nat
  heartbeatInterval : Option Nat
  heartbeatMs : Int
deriving DecidableEq, Repr

/-- `RealTimeServer.startHeartbeat`: an early return when a heartbeat handle
is already stored; otherwise schedule a periodic task and store its handle. -/
def RTState.startHeartbeat (s : RTState) : RTState :=
  match s.heartbeatInterval with
  | some _ => s
  | none =>
      { s with
        activeTimers := s.activeTimers ++ [s.nextTimer],
        heartbeatInterval := some s.nextTimer,
        nextTimer := s.nextTimer + 1 }

/-- `RealTimeServer.stopHeartbeat`: `clearInterval` the stored handle, if any,
and reset the field to `undefined`. -/
def RTState.stopHeartbeat (s : RTState) : RTState :=
  match s.heartbeatInterval with
  | some id => { s with activeTimers := s.activeTimers.erase id, heartbeatInterval := none }
  | none => s

/-- Well-formedness of a `MemoryStorage` state: the primary map has no
duplicate keys, each entry is stored under its own id, and the batch index is
consistent with the primary map — every indexed id resolves to an entry of
that batch, every stored entry's id is indexed under its batch, and no batch
set holds a duplicate id. A freshly constructed store is well formed, and the
operations preserve well-formedness except that `save` leaves a stale batch
index entry behind when an existing id is re-saved under a different batch. -/
def MemState.wf (st : MemState) : Bool :=
  decide (st.entries.map Prod.fst).Nodup &&
  st.entries.all (fun p => p.1 = p.2.id) &&
  st.entriesByBatch.all (fun q =>
    decide q.2.Nodup &&
    q.2.all (fun id =>
      match mapGet st.entries id with
      | some e => e.batchId = q.1
      | none => false)) &&
  st.entries.all (fun p =>
    match mapGet st.entriesByBatch p.2.batchId with
    | some ids => decide (p.1 ∈ ids)
    | none => false)

/-! Concrete sample data used by the closed theorems and witnesses below. -/

/-- An entry carrying tag `a`. -/
def entryTagged : Entry :=
  { id := "e1", batchId := "b1", type := .log, content := "hello", tags := ["a"], createdAt := 10 }

/-- An entry carrying no tags. -/
def entryUntagged : Entry :=
  { id := "e2", batchId := "b1", type := .log, content := "hello", tags := [], createdAt := 20 }

/-- A list request filtering by tag `a` only. -/
def tagOpts : ListOptions := { tags := some ["a"] }

/-- A memory store holding the tagged and the untagged entry. -/
def memTwo : MemState := (MemState.empty.save entryTagged).save entryUntagged

/-- A log entry of batch `bA`. -/
def entryBatchA : Entry :=
  { id := "e3", batchId := "bA", type := .log, content := "x", tags := [], createdAt := 30 }

/-- A log entry of batch `bB`. -/
def entryBatchB : Entry :=
  { id := "e4", batchId := "bB", type := .log, content := "y", tags := [], createdAt := 40 }

/-- A memory store holding one entry of each batch. -/
def memAB : MemState := (MemState.empty.save entryBatchA).save entryBatchB

/-- A list request supplying both a type filter and a batch filter. -/
def bothOpts : ListOptions := { type := some .log, batchId := some "bA" }

/-- First save of id `x`: batch `b1`, type `log`, content `c1`. -/
def firstSaved : Entry :=
  { id := "x", batchId := "b1", type := .log, content := "c1", tags := ["t1"], createdAt := 10 }

/-- Second save of the same id `x`, with a different batch, type, content and
creation time. -/
def secondSaved : Entry :=
  { id := "x", batchId := "b2", type := .query, content := "c2", tags := ["t2"], createdAt := 20 }

/-- A value on which `JSON.stringify` throws. -/
def circularValue : JsValue := { serial := none }

/-- A fixed generator environment for the watcher evaluations. -/
def sampleEnv : GenEnv := { freshId := "id1", freshBatchId := "fresh-batch", now := 1000 }

/-- A request on a non-ignored path whose body fails to serialize. -/
def circularBodyReq : RequestRecordData :=
  { batchId := "b", startTime := 0, method := "post", url := "/u", path := "/u",
    body := some circularValue, response := { status := 200 } }

/-- A request on a non-ignored path answered with status 503. -/
def req503 : RequestRecordData :=
  { batchId := "b1", startTime := 900, method := "get", url := "http://x/y", path := "/y",
    response := { status := 503 } }

/-- The entry the default request watcher records for `req503` under
`sampleEnv`. -/
def entry503 : WEntry RequestContent :=
  { id := "id1", batchId := "b1", type := .request,
    content :=
      { method := "GET", url := "http://x/y", path := "/y", query := [], headers := [],
        body := .nil, ip := none, userAgent := none,
        response := { status := 503, headers := [], body := .nil, size := none } },
    tags := ["method:GET", "status:503", "error", "server-error"],
    createdAt := 1000, duration := some 100, memoryUsage := none }

/-- A storage adapter whose every operation rejects with `db down`. -/
def failingStorage : StorageM :=
  { list := fun _ => .error "db down",
    find := fun _ => .error "db down",
    findByBatch := fun _ => .error "db down",
    stats := .error "db down",
    clear := .error "db down",
    prune := fun _ => .error "db down" }

/-- A request for the stats route. -/
def statsReq : ApiRequest := { method := "GET", path := "/api/stats" }

/-- A request matching no route. -/
def unknownReq : ApiRequest := { method := "GET", path := "/nope" }

/-- A minimal entry with the given id and creation time. -/
def tinyEntry (i : String) (t : Int) : Entry :=
  { id := i, batchId := "b", type := .log, content := "", tags := [], createdAt := t }

/-- A memory store with `maxEntries = 10` filled to capacity by ten saves, the
first of an entry whose id is the empty string. -/
def fullTen : MemState :=
  MemState.saveBatch (MemState.empty 10)
    [tinyEntry "" 0, tinyEntry "a" 1, tinyEntry "c" 2, tinyEntry "d" 3, tinyEntry "e" 4,
     tinyEntry "f" 5, tinyEntry "g" 6, tinyEntry "h" 7, tinyEntry "i" 8, tinyEntry "j" 9]

/-- A well-formed two-entry store: two distinct ids, one in batch `b` and one
in batch `bb`. -/
def memWfPair : MemState :=
  (MemState.empty.save (tinyEntry "p" 5)).save
    { id := "q", batchId := "bb", type := .query, content := "c", tags := [], createdAt := 3 }

/-- A freshly constructed real-time server state: no active timers, no
heartbeat, default 30000 ms interval. -/
def rt0 : RTState := { activeTimers := [], nextTimer := 0, heartbeatInterval := none, heartbeatMs := 30000 }

/-! Theorems. -/

/-- C1: the claim that every backend's `total` counts the entries matching all
supplied filters fails. With a tags filter, `SQLiteStorage.list` (and
`MySQLStorage.list`) count 2 where only 1 entry matches, because the tag
filter runs in application code after the count and the pagination;
`PostgreSQLStorage.list` and `MemoryStorage.list` count correctly there. With
a type filter and a batch filter supplied together, `MemoryStorage.list`
counts 2 where only 1 entry matches, because its `else if` never applies the
batch filter when a type filter is present. -/
theorem list_total_ignores_tag_filter :
    (sqliteList [entryTagged, entryUntagged] tagOpts).total = 2 ∧
    specFilteredTotal [entryTagged, entryUntagged] tagOpts = 1 ∧
    (pgList [entryTagged, entryUntagged] tagOpts).total = 1 ∧
    (memTwo.list tagOpts).total = 1 ∧
    (memAB.list bothOpts).total = 2 ∧
    specFilteredTotal [entryBatchA, entryBatchB] bothOpts = 1 := by decide

/-- C2: re-saving id `x` with a different batch, type and creation time.
`MemoryStorage.save` (a plain `Map.set`) and `SQLiteStorage.save`
(`INSERT OR REPLACE`) replace the whole record, so the second save's
`batchId`, `type` and `createdAt` win; only `MySQLStorage.save` (and the
identical PostgreSQL upsert) keep the originally stored `batchId`, `type` and
`createdAt` while updating content, tags, duration and memoryUsage. -/
theorem save_upsert_divergence :
    ((MemState.empty.save firstSaved).save secondSaved).find "x" = some secondSaved ∧
    sqliteSave (sqliteSave [] firstSaved) secondSaved = [secondSaved] ∧
    mysqlSave (mysqlSave [] firstSaved) secondSaved =
      [{ firstSaved with content := "c2", tags := ["t2"],
                         duration := none, memoryUsage := none }] ∧
    secondSaved.batchId ≠ firstSaved.batchId := by decide

/-- C3: the claim that no watcher's `record` can throw fails for the request
watcher. On a non-ignored path with a body whose serialization throws,
`RequestWatcher.record` propagates the `JSON.stringify` exception, because its
`truncateBody` has no `try`/`catch`; `CacheWatcher.truncateValue` and
`HttpClientWatcher.truncateBody` catch the same failure and degrade to the
`[UNSERIALIZABLE]` sentinel as specified. -/
theorem requestWatcher_record_throws_on_circular_body :
    (RequestWatcher.ofOptions {}).record sampleEnv circularBodyReq =
      .error "TypeError: Converting circular structure to JSON" ∧
    cacheTruncateValue (some circularValue) = .sentinel "[UNSERIALIZABLE]" ∧
    httpTruncateBody 64 (some circularValue) = .sentinel "[UNSERIALIZABLE]" := by decide

/-- C4: for the memory backend and the shared SQL `DELETE` shape, `prune`
keeps exactly the entries whose `createdAt` is not strictly below the cutoff
and returns the number of entries strictly below it. -/
theorem prune_deletes_exactly_older (st : MemState) (tbl : List Entry) (cutoff : Int) :
    (st.prune cutoff).1.entries =
      st.entries.filter (fun p => !decide (p.2.createdAt < cutoff)) ∧
    (st.prune cutoff).2 =
      (st.entries.filter (fun p => decide (p.2.createdAt < cutoff))).length ∧
    (sqlPrune tbl cutoff).1 = tbl.filter (fun r => !decide (r.createdAt < cutoff)) ∧
    (sqlPrune tbl cutoff).2 =
      (tbl.filter (fun r => decide (r.createdAt < cutoff))).length := by
  refine ⟨?_, ?_, ?_, ?_⟩ <;>
    simp [MemState.prune, sqlPrune, List.partition_eq_filter_filter] <;> rfl

/-- C5 counterexample: after re-saving id `x` under batch `b2`, the memory
backend's `findByBatch "b1"` returns an entry whose batch is `b2` — the stale
batch index resolves the id to the overwritten entry. -/
theorem findByBatch_stale_index_counterexample :
    ¬ (∀ e ∈ ((MemState.empty.save firstSaved).save secondSaved).findByBatch "b1",
        e.batchId = "b1") := by decide

/-- C10 counterexample: a memory store with `maxEntries = 10` filled by ten
saves, the first entry having the empty string as id. The next save triggers
eviction of one key, but the `if (oldestKey)` truthiness guard skips the empty
string, so nothing is evicted and the store grows to 11 entries, breaking the
bound. -/
theorem memory_bound_counterexample :
    ¬ ((fullTen.save (tinyEntry "z" 10)).entries.length ≤ fullTen.maxEntries) := by decide

/-- A `query:<verb>` tag is never the `slow` tag (the lengths differ). -/
theorem queryTag_ne_slow (t : String) : "query:" ++ t ≠ "slow" := by
  intro h
  have hl := congrArg String.length h
  rw [String.length_append] at hl
  have h6 : "query:".length = 6 := rfl
  have h4 : "slow".length = 4 := rfl
  omega

/-- A `method:<M>` tag is never the `error` tag (the lengths differ). -/
theorem methodTag_ne_error (m : String) : "method:" ++ m ≠ "error" := by
  intro h
  have hl := congrArg String.length h
  rw [String.length_append] at hl
  have h7 : "method:".length = 7 := rfl
  have h5 : "error".length = 5 := rfl
  omega

/-- A `status:<code>` tag is never the `error` tag (the lengths differ). -/
theorem statusTag_ne_error (s : String) : "status:" ++ s ≠ "error" := by
  intro h
  have hl := congrArg String.length h
  rw [String.length_append] at hl
  have h7 : "status:".length = 7 := rfl
  have h5 : "error".length = 5 := rfl
  omega

/-- A `method:<M>` tag is never the `server-error` tag (first characters
differ). -/
theorem methodTag_ne_serverError (m : String) : "method:" ++ m ≠ "server-error" := by
  intro h
  have hd := congrArg String.data h
  rw [String.data_append] at hd
  have hm : "method:".data = ['m', 'e', 't', 'h', 'o', 'd', ':'] := rfl
  have hs : "server-error".data = ['s', 'e', 'r', 'v', 'e', 'r', '-', 'e', 'r', 'r', 'o', 'r'] := rfl
  rw [hm, hs] at hd
  simp only [List.cons_append] at hd
  injection hd with h1 _
  exact absurd h1 (by decide)

/-- A `status:<code>` tag is never the `server-error` tag (second characters
differ). -/
theorem statusTag_ne_serverError (s : String) : "status:" ++ s ≠ "server-error" := by
  intro h
  have hd := congrArg String.data h
  rw [String.data_append] at hd
  have hm : "status:".data = ['s', 't', 'a', 't', 'u', 's', ':'] := rfl
  have hs : "server-error".data = ['s', 'e', 'r', 'v', 'e', 'r', '-', 'e', 'r', 'r', 'o', 'r'] := rfl
  rw [hm, hs] at hd
  simp only [List.cons_append] at hd
  injection hd with h1 h2
  injection h2 with h3 _
  exact absurd h3 (by decide)

/-- The derived request tags contain `error` exactly when the response status
is at least 400. -/
theorem mem_generateTags_error (c : RequestContent) :
    "error" ∈ generateTags c ↔ 400 ≤ c.response.status := by
  by_cases h4 : 400 ≤ c.response.status
  · by_cases h5 : 500 ≤ c.response.status <;> simp [generateTags, h4, h5]
  · have h5 : ¬ 500 ≤ c.response.status := fun h => h4 (le_trans (by norm_num) h)
    simp [generateTags, h4, h5, Ne.symm (methodTag_ne_error c.method),
      Ne.symm (statusTag_ne_error (toString c.response.status))]

/-- The derived request tags contain `server-error` exactly when the response
status is at least 500. -/
theorem mem_generateTags_serverError (c : RequestContent) :
    "server-error" ∈ generateTags c ↔ 500 ≤ c.response.status := by
  by_cases h5 : 500 ≤ c.response.status
  · have h4 : 400 ≤ c.response.status := le_trans (by norm_num) h5
    simp [generateTags, h4, h5]
  · by_cases h4 : 400 ≤ c.response.status <;>
      simp [generateTags, h4, h5, Ne.symm (methodTag_ne_serverError c.method),
        Ne.symm (statusTag_ne_serverError (toString c.response.status)),
        (by decide : ¬ ("server-error" : String) = "error")]

/-- C6: a recorded query is classified slow — `content.slow` set and the
`slow` tag present — exactly when its duration strictly exceeds the
configured threshold; the constructor default is 100 ms, and at the default a
duration of 100 is not slow while 101 is. -/
theorem queryWatcher_slow_iff_above_threshold (w : QueryWatcher) (env : GenEnv)
    (d : QueryRecordData) :
    ((w.record env d).content.slow = true ↔ w.slowThreshold < d.duration) ∧
    ("slow" ∈ (w.record env d).tags ↔ w.slowThreshold < d.duration) ∧
    (QueryWatcher.ofOptions {}).slowThreshold = 100 ∧
    ((QueryWatcher.ofOptions {}).record sampleEnv
        { sql := "select 1", duration := 100 }).content.slow = false ∧
    ((QueryWatcher.ofOptions {}).record sampleEnv
        { sql := "select 1", duration := 101 }).content.slow = true := by
  refine ⟨?_, ?_, by decide, by decide, by decide⟩
  · simp [QueryWatcher.record, createEntry]
  · cases hq : extractQueryType d.sql with
    | none =>
        by_cases hs : w.slowThreshold < d.duration <;>
          simp [QueryWatcher.record, createEntry, hs, hq]
    | some t =>
        by_cases hs : w.slowThreshold < d.duration <;>
          simp [QueryWatcher.record, createEntry, hs, hq, Ne.symm (queryTag_ne_slow t)]

/-- C7: whenever the request watcher records an entry (the path is not
ignored and no serialization throw occurs), the derived tags contain `error`
exactly when the response status is at least 400 and `server-error` exactly
when it is at least 500. -/
theorem requestWatcher_error_tags_iff (w : RequestWatcher) (env : GenEnv)
    (d : RequestRecordData) (e : WEntry RequestContent)
    (h : w.record env d = .ok (some e)) :
    (("error" ∈ e.tags) ↔ 400 ≤ d.response.status) ∧
    (("server-error" ∈ e.tags) ↔ 500 ≤ d.response.status) := by
  unfold RequestWatcher.record at h
  split at h
  · simp at h
  · split at h
    · simp at h
    · split at h
      · simp at h
      · rw [Except.ok.injEq, Option.some.injEq] at h
        subst h
        exact ⟨mem_generateTags_error _, mem_generateTags_serverError _⟩

/-- Witness for C7: the default watcher records `req503` as `entry503`, whose
tags contain both `error` and `server-error` as 503 is at least 400 and at
least 500. -/
theorem requestWatcher_error_tags_iff_witness :
    ((RequestWatcher.ofOptions {}).record sampleEnv req503 = .ok (some entry503)) ∧
    ((("error" ∈ entry503.tags) ↔ 400 ≤ req503.response.status) ∧
     (("server-error" ∈ entry503.tags) ↔ 500 ≤ req503.response.status)) :=
  ⟨by decide,
   requestWatcher_error_tags_iff (RequestWatcher.ofOptions {}) sampleEnv req503 entry503
     (by decide)⟩

/-- C9: starting the heartbeat twice equals starting it once (no second
periodic task is scheduled), stopping always clears the stored handle, a
start/stop pair restores the scheduled-timer set (the fresh `setInterval`
handle is not already active), and the heartbeat can be started again after a
stop. -/
theorem heartbeat_idempotent_and_stoppable (s : RTState) :
    s.startHeartbeat.startHeartbeat = s.startHeartbeat ∧
    s.startHeartbeat.stopHeartbeat.heartbeatInterval = none ∧
    (s.heartbeatInterval = none → s.nextTimer ∉ s.activeTimers →
      s.startHeartbeat.stopHeartbeat.activeTimers = s.activeTimers) ∧
    s.startHeartbeat.stopHeartbeat.startHeartbeat.heartbeatInterval.isSome = true := by
  cases h : s.heartbeatInterval with
  | some id =>
      refine ⟨?_, ?_, ?_, ?_⟩ <;>
        simp [RTState.startHeartbeat, RTState.stopHeartbeat, h]
  | none =>
      refine ⟨?_, ?_, ?_, ?_⟩ <;>
        simp [RTState.startHeartbeat, RTState.stopHeartbeat, h]
      intro hni
      rw [List.erase_append_right _ hni]
      simp

/-- Witness for C9 at the freshly constructed server state. -/
theorem heartbeat_idempotent_and_stoppable_witness :
    rt0.heartbeatInterval = none ∧ rt0.nextTimer ∉ rt0.activeTimers ∧
    rt0.startHeartbeat.stopHeartbeat.activeTimers = rt0.activeTimers ∧
    rt0.startHeartbeat.startHeartbeat = rt0.startHeartbeat :=
  ⟨rfl, by decide,
   (heartbeat_idempotent_and_stoppable rt0).2.2.1 rfl (by decide),
   (heartbeat_idempotent_and_stoppable rt0).1⟩

/-- C8: `ApiHandler.handle` lets a storage rejection escape — the stats route
over a storage whose `stats()` rejects with `db down` yields the propagated
error, not the 500 response with that message the `catch` clause would build;
a request matching no route does produce the 404 `Not found` response. -/
theorem apiHandle_propagates_storage_rejection :
    apiHandle failingStorage 0 statsReq = .error "db down" ∧
    apiHandle failingStorage 0 statsReq ≠
      .ok { status := 500, body := .errMsg "db down" } ∧
    apiHandle failingStorage 0 unknownReq =
      .ok { status := 404, body := .errMsg "Not found" } := by decide

/-- Unfolding a map lookup one binding at a time. -/
theorem mapGet_cons {κ β : Type} [DecidableEq κ] (a : κ) (v : β) (t : List (κ × β)) (k : κ) :
    mapGet ((a, v) :: t) k = if a = k then some v else mapGet t k := by
  by_cases h : a = k <;>
    simp [mapGet, List.find?_cons_of_pos, List.find?_cons_of_neg, h]

/-- A successful map lookup comes from a stored binding. -/
theorem mapGet_eq_some_mem {κ β : Type} [DecidableEq κ] {m : List (κ × β)} {k : κ} {v : β}
    (h : mapGet m k = some v) : (k, v) ∈ m := by
  unfold mapGet at h
  cases hf : m.find? (fun p => p.1 = k) with
  | none => rw [hf] at h; cases h
  | some q =>
      rw [hf] at h
      have hv : q.2 = v := Option.some.inj h
      have hqmem := List.mem_of_find?_eq_some hf
      have hk : q.1 = k := by simpa using List.find?_some hf
      have hkv : (k, v) = q := by
        cases q
        cases hk
        cases hv
        rfl
      rw [hkv]
      exact hqmem

/-- With duplicate-free keys, a stored binding is what lookup returns. -/
theorem mem_mapGet_of_nodupKeys {κ β : Type} [DecidableEq κ] {m : List (κ × β)}
    (hnd : (m.map Prod.fst).Nodup) {k : κ} {v : β} (hm : (k, v) ∈ m) :
    mapGet m k = some v := by
  induction m with
  | nil => cases hm
  | cons p t ih =>
      rw [List.map_cons] at hnd
      obtain ⟨hp, ht⟩ := List.nodup_cons.mp hnd
      rcases List.mem_cons.mp hm with h | h
      · cases h
        rw [mapGet_cons, if_pos rfl]
      · have hne : p.1 ≠ k := fun he => hp (he ▸ List.mem_map.mpr ⟨(k, v), h, rfl⟩)
        cases p
        rw [mapGet_cons, if_neg hne]
        exact ih ht h

/-- Two duplicate-free lists with the same members are permutations of each
other. -/
theorem perm_of_nodups_mem_iff {α : Type} [DecidableEq α] {l₁ l₂ : List α}
    (h₁ : l₁.Nodup) (h₂ : l₂.Nodup) (h : ∀ a, a ∈ l₁ ↔ a ∈ l₂) : List.Perm l₁ l₂ :=
  List.perm_iff_count.mpr fun a => by
    rw [List.count_eq_of_nodup h₁, List.count_eq_of_nodup h₂]
    simp only [h a]

/-- A page cut from a descending sort is sorted descending. -/
theorem sorted_take_drop_sortDesc (l : List Entry) (n m : Nat) :
    (((sortDesc l).drop n).take m).Sorted (fun a c => c.createdAt ≤ a.createdAt) := by
  have hsub : List.Sublist (((sortDesc l).drop n).take m) (sortDesc l) :=
    (List.take_sublist _ _).trans (List.drop_sublist _ _)
  have hsorted : (sortDesc l).Sorted (fun a c => c.createdAt ≤ a.createdAt) := by
    unfold sortDesc
    exact List.sorted_insertionSort _ _
  exact List.Pairwise.sublist hsub hsorted

/-- C5 as amended, covering every backend. The SQL backends' `findByBatch`
(`WHERE batch_id = ? ORDER BY created_at ASC`, shared by SQLite, MySQL and
PostgreSQL) returns exactly the stored entries of the batch, unfiltered and
unpaginated, sorted ascending by `createdAt`, and all three SQL `list`
implementations return their default page sorted descending, the inverse
order. The memory backend does the same in any state whose batch index is
consistent with the entry map — which a re-save of an existing id under a new
batch violates, see the counterexample. -/
theorem findByBatch_exact_sorted_of_wf (st : MemState) (tbl : List Entry) (b : String)
    (hwf : st.wf = true) :
    (List.Perm (st.findByBatch b)
       ((st.entries.map Prod.snd).filter (fun e => e.batchId = b)) ∧
     (st.findByBatch b).Sorted (fun a c => a.createdAt ≤ c.createdAt) ∧
     ((st.list {}).data).Sorted (fun a c => c.createdAt ≤ a.createdAt)) ∧
    (List.Perm (sqlFindByBatch tbl b) (tbl.filter (fun e => e.batchId = b)) ∧
     (sqlFindByBatch tbl b).Sorted (fun a c => a.createdAt ≤ c.createdAt) ∧
     ((sqliteList tbl {}).data).Sorted (fun a c => c.createdAt ≤ a.createdAt) ∧
     ((mysqlList tbl {}).data).Sorted (fun a c => c.createdAt ≤ a.createdAt) ∧
     ((pgList tbl {}).data).Sorted (fun a c => c.createdAt ≤ a.createdAt)) := by
  unfold MemState.wf at hwf
  simp only [Bool.and_eq_true, List.all_eq_true, decide_eq_true_eq] at hwf
  obtain ⟨⟨⟨hnd, hkey⟩, hsound⟩, hcomp⟩ := hwf
  have hndV : (st.entries.map Prod.snd).Nodup := by
    have hfst : st.entries.map Prod.fst = (st.entries.map Prod.snd).map Entry.id := by
      rw [List.map_map]
      exact List.map_congr_left fun p hp => hkey p hp
    rw [hfst] at hnd
    exact hnd.of_map _
  refine ⟨⟨?_, ?_, ?_⟩, ?_, ?_, ?_, ?_, ?_⟩
  · unfold MemState.findByBatch
    cases hB : mapGet st.entriesByBatch b with
    | none =>
        have hR : (st.entries.map Prod.snd).filter (fun e => e.batchId = b) = [] := by
          rw [List.filter_eq_nil_iff]
          intro e he hbeq
          obtain ⟨p, hp, hpe⟩ := List.mem_map.mp he
          have hc := hcomp p hp
          have hbatch : e.batchId = b := of_decide_eq_true hbeq
          rw [hpe, hbatch, hB] at hc
          exact Bool.false_ne_true hc
        rw [hR]
    | some ids =>
        obtain ⟨hidsnd, hids⟩ := hsound (b, ids) (mapGet_eq_some_mem hB)
        have hinj : ∀ a a' e, e ∈ mapGet st.entries a → e ∈ mapGet st.entries a' → a = a' := by
          intro a a' e h1 h2
          have m1 := mapGet_eq_some_mem (Option.mem_def.mp h1)
          have m2 := mapGet_eq_some_mem (Option.mem_def.mp h2)
          have k1 := hkey _ m1
          have k2 := hkey _ m2
          exact k1.trans k2.symm
        have hL : (ids.filterMap (mapGet st.entries)).Nodup :=
          hidsnd.filterMap hinj
        have hmemiff : ∀ e, e ∈ ids.filterMap (mapGet st.entries) ↔
            e ∈ (st.entries.map Prod.snd).filter (fun x => x.batchId = b) := by
          intro e
          constructor
          · intro he
            obtain ⟨id, hidm, hlook⟩ := List.mem_filterMap.mp he
            have hcl := hids id hidm
            rw [hlook] at hcl
            have hbatch : e.batchId = b := of_decide_eq_true hcl
            refine List.mem_filter.mpr ⟨?_, by simpa using hbatch⟩
            exact List.mem_map.mpr ⟨(id, e), mapGet_eq_some_mem hlook, rfl⟩
          · intro he
            obtain ⟨heV, hbeq⟩ := List.mem_filter.mp he
            obtain ⟨p, hp, hpe⟩ := List.mem_map.mp heV
            have hbatch : e.batchId = b := of_decide_eq_true hbeq
            have hc := hcomp p hp
            rw [hpe, hbatch, hB] at hc
            have hpid : p.1 ∈ ids := of_decide_eq_true hc
            refine List.mem_filterMap.mpr ⟨p.1, hpid, ?_⟩
            have hmem : (p.1, e) ∈ st.entries := by
              cases p
              cases hpe
              exact hp
            exact mem_mapGet_of_nodupKeys hnd hmem
        simp only [hB]
        unfold sortAsc
        exact (List.perm_insertionSort _ _).trans
          (perm_of_nodups_mem_iff hL (hndV.filter _) hmemiff)
  · unfold MemState.findByBatch
    cases hB : mapGet st.entriesByBatch b with
    | none => simp only [hB]; exact List.sorted_nil
    | some ids =>
        simp only [hB]
        unfold sortAsc
        exact List.sorted_insertionSort _ _
  · exact sorted_take_drop_sortDesc _ _ _
  · unfold sqlFindByBatch sortAsc
    exact List.perm_insertionSort _ _
  · unfold sqlFindByBatch sortAsc
    exact List.sorted_insertionSort _ _
  · exact sorted_take_drop_sortDesc _ _ _
  · exact sorted_take_drop_sortDesc _ _ _
  · exact sorted_take_drop_sortDesc _ _ _

/-- Witness for the amended C5 at a consistent two-entry store and a
two-entry table, one entry in each batch. -/
theorem findByBatch_exact_sorted_of_wf_witness :
    memWfPair.wf = true ∧
    ((List.Perm (memWfPair.findByBatch "bb")
        ((memWfPair.entries.map Prod.snd).filter (fun e => e.batchId = "bb")) ∧
      (memWfPair.findByBatch "bb").Sorted (fun a c => a.createdAt ≤ c.createdAt) ∧
      ((memWfPair.list {}).data).Sorted (fun a c => c.createdAt ≤ a.createdAt)) ∧
     (List.Perm (sqlFindByBatch [entryBatchA, entryBatchB] "bb")
        (([entryBatchA, entryBatchB] : List Entry).filter (fun e => e.batchId = "bb")) ∧
      (sqlFindByBatch [entryBatchA, entryBatchB] "bb").Sorted
        (fun a c => a.createdAt ≤ c.createdAt) ∧
      ((sqliteList [entryBatchA, entryBatchB] {}).data).Sorted
        (fun a c => c.createdAt ≤ a.createdAt) ∧
      ((mysqlList [entryBatchA, entryBatchB] {}).data).Sorted
        (fun a c => c.createdAt ≤ a.createdAt) ∧
      ((pgList [entryBatchA, entryBatchB] {}).data).Sorted
        (fun a c => c.createdAt ≤ a.createdAt))) :=
  ⟨by decide,
   findByBatch_exact_sorted_of_wf memWfPair [entryBatchA, entryBatchB] "bb" (by decide)⟩

/-- Writing a binding grows a map by at most one pair. -/
theorem mapSet_length_le {κ β : Type} [DecidableEq κ] (m : List (κ × β)) (k : κ) (v : β) :
    (mapSet m k v).length ≤ m.length + 1 := by
  unfold mapSet
  split <;> simp

/-- A pair of an updated map was stored before or is the written binding. -/
theorem mem_mapSet {κ β : Type} [DecidableEq κ] {m : List (κ × β)} {k : κ} {v : β}
    {p : κ × β} (h : p ∈ mapSet m k v) : p ∈ m ∨ p = (k, v) := by
  unfold mapSet at h
  split at h
  · obtain ⟨q, hq, hqe⟩ := List.mem_map.mp h
    by_cases hqk : q.1 = k
    · right
      rw [← hqe, if_pos hqk]
    · left
      rw [← hqe, if_neg hqk]
      exact hq
  · rcases List.mem_append.mp h with h | h
    · left; exact h
    · right; simpa using h

/-- Evicting a nonempty key only deletes it from the primary map; evicting
never touches `maxEntries`. -/
theorem entries_evictOne (st : MemState) (k : String) (hk : k ≠ "") :
    (evictOne st k).entries = mapDel st.entries k := by
  unfold evictOne
  rw [if_neg hk]
  cases mapGet st.entries k <;> rfl

/-- Eviction of one key keeps the configured bound. -/
theorem evictOne_maxEntries (st : MemState) (k : String) :
    (evictOne st k).maxEntries = st.maxEntries := by
  unfold evictOne
  split
  · rfl
  · cases mapGet st.entries k <;> rfl

/-- The primary map after the whole eviction loop over nonempty keys is the
map with each of those keys deleted in turn. -/
theorem entries_evictFold : ∀ (ks : List String) (st : MemState),
    (∀ k ∈ ks, k ≠ "") → (ks.foldl evictOne st).entries = ks.foldl mapDel st.entries
  | [], _, _ => rfl
  | k :: t, st, h => by
      rw [List.foldl_cons, List.foldl_cons,
        entries_evictFold t (evictOne st k) (fun x hx => h x (List.mem_cons_of_mem _ hx)),
        entries_evictOne st k (h k (List.mem_cons_self k t))]

/-- The eviction loop keeps the configured bound. -/
theorem maxEntries_evictFold : ∀ (ks : List String) (st : MemState),
    (ks.foldl evictOne st).maxEntries = st.maxEntries
  | [], _ => rfl
  | k :: t, st => by
      rw [List.foldl_cons, maxEntries_evictFold t (evictOne st k), evictOne_maxEntries]

/-- Deleting the first `n` keys of a map, in order, drops its first `n`
pairs: each deletion always removes the current head. -/
theorem foldl_mapDel_take {κ β : Type} [DecidableEq κ] :
    ∀ (l : List (κ × β)) (n : Nat), ((l.map Prod.fst).take n).foldl mapDel l = l.drop n
  | _, 0 => by simp
  | [], _ + 1 => by simp
  | p :: t, n + 1 => by
      rw [List.map_cons, List.take_succ_cons, List.foldl_cons]
      have hdel : mapDel (p :: t) p.1 = t := by
        unfold mapDel
        exact List.eraseP_cons_of_pos (by simp)
      rw [hdel, foldl_mapDel_take t n, List.drop_succ_cons]

/-- A `save` on a full store whose keys are all nonempty first drops the
`maxEntries / 10` oldest-inserted pairs and then writes the new entry. -/
theorem save_entries_of_full (st : MemState) (e : Entry)
    (hfull : st.maxEntries ≤ st.entries.length)
    (hne : ∀ p ∈ st.entries, p.1 ≠ "") :
    (st.save e).entries = mapSet (st.entries.drop (st.maxEntries / 10)) e.id e := by
  have hks : ∀ k ∈ (st.entries.map Prod.fst).take (st.maxEntries / 10), k ≠ "" := by
    intro k hk
    obtain ⟨p, hp, hpk⟩ := List.mem_map.mp (List.mem_of_mem_take hk)
    exact hpk ▸ hne p hp
  have h1 : (st.save e).entries =
      mapSet (((st.entries.map Prod.fst).take (st.maxEntries / 10)).foldl evictOne st).entries
        e.id e := by
    unfold MemState.save
    rw [if_pos hfull]
  rw [h1, entries_evictFold _ _ hks, foldl_mapDel_take]

/-- A `save` below capacity only writes the new entry. -/
theorem save_entries_of_not_full (st : MemState) (e : Entry)
    (hlt : st.entries.length < st.maxEntries) :
    (st.save e).entries = mapSet st.entries e.id e := by
  unfold MemState.save
  rw [if_neg (not_le.mpr hlt)]

/-- `save` keeps the configured bound. -/
theorem save_maxEntries (st : MemState) (e : Entry) :
    (st.save e).maxEntries = st.maxEntries := by
  unfold MemState.save
  split
  · exact maxEntries_evictFold _ _
  · rfl

/-- One `save` preserves the size bound when `maxEntries` is at least 10 and
no stored key is the empty string. -/
theorem save_length_le (st : MemState) (e : Entry)
    (hmax : 10 ≤ st.maxEntries)
    (hlen : st.entries.length ≤ st.maxEntries)
    (hne : ∀ p ∈ st.entries, p.1 ≠ "") :
    (st.save e).entries.length ≤ st.maxEntries := by
  by_cases hfull : st.maxEntries ≤ st.entries.length
  · rw [save_entries_of_full st e hfull hne]
    have h1 := mapSet_length_le (st.entries.drop (st.maxEntries / 10)) e.id e
    have h2 : (st.entries.drop (st.maxEntries / 10)).length =
        st.entries.length - st.maxEntries / 10 := List.length_drop _ _
    have h3 : 1 ≤ st.maxEntries / 10 :=
      (Nat.le_div_iff_mul_le (by norm_num)).mpr (by omega)
    omega
  · rw [save_entries_of_not_full st e (not_le.mp hfull)]
    have h1 := mapSet_length_le st.entries e.id e
    omega

/-- `save` of an entry with a nonempty id keeps every stored key nonempty. -/
theorem save_keys_ne (st : MemState) (e : Entry)
    (hne : ∀ p ∈ st.entries, p.1 ≠ "") (he : e.id ≠ "") :
    ∀ p ∈ (st.save e).entries, p.1 ≠ "" := by
  intro p hp
  by_cases hfull : st.maxEntries ≤ st.entries.length
  · rw [save_entries_of_full st e hfull hne] at hp
    rcases mem_mapSet hp with h | h
    · exact hne p (List.mem_of_mem_drop h)
    · rw [h]; exact he
  · rw [save_entries_of_not_full st e (not_le.mp hfull)] at hp
    rcases mem_mapSet hp with h | h
    · exact hne p h
    · rw [h]; exact he

/-- `saveBatch` preserves the size bound when every saved id is nonempty. -/
theorem saveBatch_length_le : ∀ (es : List Entry) (st : MemState),
    10 ≤ st.maxEntries → st.entries.length ≤ st.maxEntries →
    (∀ p ∈ st.entries, p.1 ≠ "") → (∀ x ∈ es, x.id ≠ "") →
    (st.saveBatch es).entries.length ≤ st.maxEntries
  | [], _, _, hlen, _, _ => hlen
  | e :: t, st, hmax, hlen, hne, hids => by
      have hsave_len := save_length_le st e hmax hlen hne
      have hsave_ne := save_keys_ne st e hne (hids e (List.mem_cons_self e t))
      have h := saveBatch_length_le t (st.save e)
        (by rw [save_maxEntries]; exact hmax)
        (by rw [save_maxEntries]; exact hsave_len)
        hsave_ne
        (fun x hx => hids x (List.mem_cons_of_mem _ hx))
      rw [save_maxEntries] at h
      simpa [MemState.saveBatch] using h

/-- C10 as amended: for a memory store with `maxEntries` at least 10 whose
stored ids — and the ids being saved — are nonempty (the empty-string id
defeats the eviction loop's truthiness guard, see the counterexample), the
bound `entries ≤ maxEntries` holds initially and is preserved by `save`,
`saveBatch`, `prune` and `clear`; and a `save` on a full store first evicts
the `maxEntries / 10` oldest-inserted entries before inserting the new one. -/
theorem memory_bound_invariant_preserved (st : MemState) (e : Entry) (es : List Entry)
    (cutoff : Int)
    (hmax : 10 ≤ st.maxEntries)
    (hlen : st.entries.length ≤ st.maxEntries)
    (hne : ∀ p ∈ st.entries, p.1 ≠ "")
    (hids : ∀ x ∈ es, x.id ≠ "") :
    (MemState.empty st.maxEntries).entries.length ≤ st.maxEntries ∧
    (st.save e).entries.length ≤ st.maxEntries ∧
    (st.saveBatch es).entries.length ≤ st.maxEntries ∧
    (st.prune cutoff).1.entries.length ≤ st.maxEntries ∧
    st.clear.entries.length ≤ st.maxEntries ∧
    (st.entries.length = st.maxEntries →
      (st.save e).entries = mapSet (st.entries.drop (st.maxEntries / 10)) e.id e) := by
  refine ⟨by simp [MemState.empty], save_length_le st e hmax hlen hne,
    saveBatch_length_le es st hmax hlen hne hids, ?_, by simp [MemState.clear],
    fun hfull => save_entries_of_full st e (le_of_eq hfull.symm) hne⟩
  have hp : (st.prune cutoff).1.entries.length ≤ st.entries.length := by
    simp only [MemState.prune, List.partition_eq_filter_filter]
    exact List.length_filter_le _ _
  omega

/-- Witness for the amended C10 at a fresh bounded store. -/
theorem memory_bound_invariant_preserved_witness :
    (10 ≤ (MemState.empty 10).maxEntries ∧
     (MemState.empty 10).entries.length ≤ (MemState.empty 10).maxEntries ∧
     (∀ p ∈ (MemState.empty 10).entries, p.1 ≠ "") ∧
     (∀ x ∈ [tinyEntry "a" 1], x.id ≠ "")) ∧
    ((MemState.empty (MemState.empty 10).maxEntries).entries.length ≤
        (MemState.empty 10).maxEntries ∧
     ((MemState.empty 10).save (tinyEntry "z" 10)).entries.length ≤
        (MemState.empty 10).maxEntries ∧
     ((MemState.empty 10).saveBatch [tinyEntry "a" 1]).entries.length ≤
        (MemState.empty 10).maxEntries ∧
     ((MemState.empty 10).prune 0).1.entries.length ≤ (MemState.empty 10).maxEntries ∧
     (MemState.empty 10).clear.entries.length ≤ (MemState.empty 10).maxEntries ∧
     ((MemState.empty 10).entries.length = (MemState.empty 10).maxEntries →
       ((MemState.empty 10).save (tinyEntry "z" 10)).entries =
         mapSet ((MemState.empty 10).entries.drop ((MemState.empty 10).maxEntries / 10))
           (tinyEntry "z" 10).id (tinyEntry "z" 10))) :=
  ⟨⟨by decide, by decide, by decide, by decide⟩,
   memory_bound_invariant_preserved (MemState.empty 10) (tinyEntry "z" 10)
     [tinyEntry "a" 1] 0 (by decide) (by decide) (by decide) (by decide)⟩

end NodeScope
